import Mathlib

/-!
Shallow embedding of `src/export_hubspot_to_supabase.py`: the incremental
HubSpot-to-Supabase synchronization protocol (watermark store, paginated
fetch, schema provisioning gate, record flattening, batched upsert with a
row-by-row fallback).  External effects are passed in as explicit data:
the stream of HTTP responses the source returns, the outcome of the
Supabase watermark query, whether the destination table exists, whether
the provisioning-script file write succeeds, and which upsert calls
succeed.  Times are epoch seconds as `Int`.  Character-level operations
(`str.isalnum`, `str.lower`) are modelled with Lean's ASCII-faithful
`Char.isAlphanum` and `Char.toLower`.
-/

namespace HubSpotSupabase

/-- A JSON-like scalar value as it appears inside a HubSpot record's
`properties` map (the values of `obj['properties']` in the source). -/
inductive PropVal where
  | null
  | str (s : String)
  | num (n : Int)
  | bool (b : Bool)
  deriving DecidableEq, Repr

/-- Python `str` coercion restricted to the scalar values above
(the `str(prop_value)` call on line 290 of the source). -/
def pyStrProp : PropVal → String
  | .null => "None"
  | .str s => s
  | .num n => toString n
  | .bool b => if b then "True" else "False"

/-- The `properties` map of a HubSpot object (a Python dict; keys are
unique on well-formed input). -/
abbrev Props := List (String × PropVal)

/-- Python `props.get(prop)`: first binding wins, `none` when absent.
A stored JSON null is returned as `some PropVal.null`; the source's
`is not None` test treats it the same as absent. -/
def lookupProp : Props → String → Option PropVal
  | [], _ => none
  | (k, v) :: ps, p => if k = p then some v else lookupProp ps p

/-- A value stored in a destination-row dict built by
`export_object_type`: `None`, a string, a boolean (the `archived` flag),
or the whole raw properties map (the `raw_properties` column). -/
inductive RowVal where
  | null
  | str (s : String)
  | bool (b : Bool)
  | obj (props : Props)
  deriving DecidableEq, Repr

/-- A destination row (a Python dict with string keys). -/
abbrev Row := List (String × RowVal)

/-- Python `record[key]` lookup / `record.get(key)` without default. -/
def rowGet : Row → String → Option RowVal
  | [], _ => none
  | (k, v) :: r, q => if k = q then some v else rowGet r q

/-- Python `record[key] = value`: overwrite in place if present,
append otherwise. -/
def rowSet : Row → String → RowVal → Row
  | [], q, w => [(q, w)]
  | (k, v) :: r, q, w => if k = q then (q, w) :: r else (k, v) :: rowSet r q w

/-- Python `record.keys()`. -/
def rowKeys (r : Row) : List String := r.map Prod.fst

/-- Python `''.join(c if c.isalnum() else '_' for c in prop)`
(lines 195 and 287 of the source). -/
def replaceNonAlnum (p : String) : String :=
  String.mk (p.data.map (fun c => if c.isAlphanum then c else '_'))

/-- Python `str.lower`, applied per character. -/
def pyLower (s : String) : String := String.mk (s.data.map Char.toLower)

/-- Column-name sanitization exactly as written in
`create_supabase_table` (line 195). -/
def sanitizeCreate (p : String) : String := pyLower (replaceNonAlnum p)

/-- Column-name sanitization exactly as written in the record-building
loop of `export_object_type` (line 287); the source duplicates the same
expression at both sites. -/
def sanitizeFlatten (p : String) : String := pyLower (replaceNonAlnum p)

/-- A HubSpot object as consumed by the exporter: `obj['id']`,
`obj.get('createdAt')`, `obj.get('updatedAt')`, `obj.get('archived', False)`
and `obj.get('properties', {})`. -/
structure SourceRecord where
  id : String
  createdAt : Option String
  updatedAt : Option String
  archived : Bool
  properties : Props
  deriving DecidableEq, Repr

/-- Python `obj.get(field)` coerced into a row value
(`None` when the field is absent). -/
def optField : Option String → RowVal
  | none => .null
  | some s => .str s

/-- The fixed keys every destination row starts with (lines 275-281). -/
def fixedRowKeys : List String :=
  ["hubspot_id", "created_at", "updated_at", "archived", "raw_properties"]

/-- The dict literal of lines 275-281: identity and metadata copied
verbatim, plus the full untouched properties map under
`raw_properties`. -/
def baseRow (obj : SourceRecord) : Row :=
  [("hubspot_id", .str obj.id),
   ("created_at", optField obj.createdAt),
   ("updated_at", optField obj.updatedAt),
   ("archived", .bool obj.archived),
   ("raw_properties", .obj obj.properties)]

/-- One step of the flattening loop (lines 285-290):
`prop_value = props.get(prop); if prop_value is not None:
record[col_name] = str(prop_value)`.  A stored JSON null comes back as
Python `None` from `.get`, hence is also skipped. -/
def flattenStep (props : Props) (r : Row) (p : String) : Row :=
  match lookupProp props p with
  | none => r
  | some v =>
      if v = PropVal.null then r
      else rowSet r (sanitizeFlatten p) (.str (pyStrProp v))

/-- The record built for one HubSpot object in `export_object_type`
(lines 275-292): the fixed columns, then one flattened column per
declared property that is present and non-null. -/
def buildRecord (properties : List String) (obj : SourceRecord) : Row :=
  properties.foldl (flattenStep obj.properties) (baseRow obj)

/-- Union of the key sets of a batch (lines 307-309:
`all_keys = set(); for record in batch: all_keys.update(record.keys())`). -/
def batchKeys (batch : List Row) : List String :=
  (batch.foldl (fun acc r => acc ++ rowKeys r) []).dedup

/-- Python `{key: record.get(key) for key in all_keys}` (line 314):
every key of the union, with `None` fill for keys the row is missing. -/
def standardize (allKeys : List String) (r : Row) : Row :=
  allKeys.map (fun k => (k, (rowGet r k).getD RowVal.null))

/-- The `standardized_batch` of lines 311-315. -/
def paddedBatch (batch : List Row) : List Row :=
  batch.map (standardize (batchKeys batch))

/-- Outcome of loading one batch: whether the bulk upsert succeeded,
how many rows the batch held, and how many rows committed. -/
structure BatchReport where
  bulkSucceeded : Bool
  attempted : Nat
  successes : Nat
  deriving DecidableEq, Repr

/-- One iteration of the insert loop (lines 303-334): bulk upsert of the
standardized batch; on bulk failure, a row-by-row fallback that attempts
every row of the padded batch and counts successes.  `bulkOk` and
`singleOk` model which Supabase upsert calls succeed. -/
def loadBatch (bulkOk : List Row → Bool) (singleOk : Row → Bool)
    (batch : List Row) : BatchReport :=
  let std := paddedBatch batch
  if bulkOk std then ⟨true, std.length, std.length⟩
  else ⟨false, std.length, (std.filter singleOk).length⟩

/-- The fixed column definitions of lines 183-190. -/
def fixedColumns : List String :=
  ["id SERIAL PRIMARY KEY",
   "hubspot_id TEXT NOT NULL UNIQUE",
   "created_at TIMESTAMPTZ",
   "updated_at TIMESTAMPTZ",
   "archived BOOLEAN DEFAULT FALSE",
   "raw_properties JSONB"]

/-- One property column definition (line 196): quoted sanitized name,
text-typed. -/
def propColumn (p : String) : String := "\"" ++ sanitizeCreate p ++ "\" TEXT"

/-- The full column list of the generated CREATE TABLE (lines 183-196). -/
def tableColumns (properties : List String) : List String :=
  fixedColumns ++ properties.map propColumn

/-- The generated CREATE TABLE statement (line 199). -/
def createTableSql (tableName : String) (properties : List String) : String :=
  "CREATE TABLE " ++ tableName ++ " (\n    " ++
    String.intercalate ",\n    " (tableColumns properties) ++ "\n);"

/-- The side-channel file `create_<table>.sql` written on lines 205-208. -/
structure ProvisioningArtifact where
  filename : String
  contents : String
  deriving DecidableEq, Repr

/-- `create_supabase_table` (lines 180-211): emits the CREATE TABLE
script to a file and returns `False` (manual intervention needed). -/
def create_supabase_table (tableName : String) (properties : List String) :
    ProvisioningArtifact × Bool :=
  (⟨"create_" ++ tableName ++ ".sql", createTableSql tableName properties⟩,
   false)

/-- One HTTP response to a page request inside `get_hubspot_objects`.
`ok results after` is a 200 page; `after = none` models a body without a
paging token, `after = some a` models `data['paging']['next']['after']`
(the source also breaks when that token is falsy, i.e. the empty
string). -/
inductive PageResponse where
  | ok (results : List SourceRecord) (after : Option String)
  | unauthorized
  | rateLimited (retryAfter : Nat)
  | httpError (code : Nat)
  | exn (msg : String)
  deriving DecidableEq, Repr

/-- Result of the pagination loop.  `complete` is a ghost flag (the
Python function does not return it) recording whether the loop ended by
exhausting pagination rather than by an error break; the caller only
ever sees `records`. -/
structure FetchResult where
  records : List SourceRecord
  complete : Bool
  deriving DecidableEq, Repr

/-- The pagination loop of `get_hubspot_objects` (lines 102-168), driven
by the stream of HTTP responses the source returns.  A 200 page extends
the accumulator and either continues with the paging token or ends the
fetch complete; a 401 prints and breaks with the records so far; a 429
sleeps and retries (consuming the next response for the same page); any
other status or a raised request exception is caught, printed, and
breaks with the records so far.  An exhausted response stream cannot
arise for the scenarios considered and counts as an aborted fetch. -/
def fetchGo : List PageResponse → List SourceRecord → FetchResult
  | [], acc => ⟨acc, false⟩
  | .ok results after :: rest, acc =>
      match after with
      | some a => if a = "" then ⟨acc ++ results, true⟩
                  else fetchGo rest (acc ++ results)
      | none => ⟨acc ++ results, true⟩
  | .unauthorized :: _, acc => ⟨acc, false⟩
  | .rateLimited _ :: rest, acc => fetchGo rest acc
  | .httpError _ :: _, acc => ⟨acc, false⟩
  | .exn _ :: _, acc => ⟨acc, false⟩

/-- `get_hubspot_objects` (lines 88-170): runs the pagination loop with
an empty accumulator.  The query parameters (property list, page limit,
`hs_lastmodifieddate >= last_sync_time` filter with ascending sort) are
applied server-side and are absorbed into the response stream. -/
def get_hubspot_objects (pages : List PageResponse) : FetchResult :=
  fetchGo pages []

/-- The external world for one `export_object_type` run. -/
structure Env where
  tableExists : Bool
  fileWriteOk : Bool
  pages : List PageResponse
  bulkOk : List Row → Bool
  singleOk : Row → Bool

/-- The distinct return points of `export_object_type`. -/
inductive ExportOutcome where
  | needsProvisioning (artifact : ProvisioningArtifact)
  | noProperties
  | noObjects
  | noRecords
  | loaded (reports : List BatchReport)
  deriving DecidableEq, Repr

/-- Slicing loop helper, structurally recursive on a fuel argument that
bounds the number of slices (each slice removes at least one element
when the batch size is positive). -/
def chunksGo (bs : Nat) : Nat → List Row → List (List Row)
  | 0, _ => []
  | _, [] => []
  | fuel + 1, x :: xs => ((x :: xs).take bs) :: chunksGo bs fuel ((x :: xs).drop bs)

/-- Python `records[i:i+batch_size]` slicing of the insert loop
(line 303).  The source is only ever called with the positive default
`batch_size = 100`; a zero size would raise in Python and yields `[]`
here. -/
def chunks (bs : Nat) (l : List Row) : List (List Row) :=
  if bs = 0 then [] else chunksGo bs l.length l

/-- The fetch-transform-load body of `export_object_type` after the
provisioning gate (lines 258-334).  Per-record flattening cannot raise
for well-formed `SourceRecord`s (the only uncaught lookup is
`obj['id']`), so the per-record `except` of line 293 is unreachable
here and every object yields a record. -/
def exportLoad (env : Env) (properties : List String) (batchSize : Nat) :
    ExportOutcome :=
  let objects := (get_hubspot_objects env.pages).records
  if objects.isEmpty then .noObjects
  else
    let records := objects.map (buildRecord properties)
    if records.isEmpty then .noRecords
    else .loaded ((chunks batchSize records).map
      (loadBatch env.bulkOk env.singleOk))

/-- `export_object_type` (lines 229-334).  The value is `.error` when
the Python function would raise out of its body (only the
provisioning-script file write of line 207 can; every other failure is
caught inside a callee) and `.ok` with the reached return point
otherwise.  `specificProperties = none` models the discover-all-
properties path, with `allProps` the result of `get_all_properties`
(which returns `[]` on any error). -/
def export_object_type (env : Env) (objectType : String)
    (specificProperties : Option (List String)) (allProps : List String)
    (batchSize : Nat) : Except String ExportOutcome :=
  let tableName := "hubspot_" ++ objectType
  let go : List String → Except String ExportOutcome := fun properties =>
    if env.tableExists then .ok (exportLoad env properties batchSize)
    else if env.fileWriteOk then
      let created := create_supabase_table tableName properties
      if created.2 then .ok (exportLoad env properties batchSize)
      else .ok (.needsProvisioning created.1)
    else .error "could not write provisioning script"
  match specificProperties with
  | none => if allProps.isEmpty then .ok .noProperties else go allProps
  | some ps => go ps

/-- The `sync_state` row for one object type as stored by
`update_sync_state`. -/
structure StoredSyncState where
  last_sync_time : Int
  sync_cursor : String
  updated_at : Int
  deriving DecidableEq, Repr

/-- `update_sync_state` (lines 75-86): upserts the watermark row for the
object type, overwriting any previous one (persistence failures are
logged and swallowed; the happy path is modelled). -/
def update_sync_state (syncTime : Int) (cursor : String) (now : Int)
    (_st : Option StoredSyncState) : Option StoredSyncState :=
  some ⟨syncTime, cursor, now⟩

/-- One iteration of the loop in `main` (lines 360-369): run
`export_object_type`; if it returns, call `update_sync_state` with the
current time; if it raises, log the error and leave the stored watermark
untouched. -/
def processObjectType (env : Env) (objectType : String)
    (specificProperties : Option (List String)) (allProps : List String)
    (st : Option StoredSyncState) (now : Int) :
    Option StoredSyncState × Except String ExportOutcome :=
  match export_object_type env objectType specificProperties allProps 100 with
  | .ok o => (update_sync_state now "" now st, .ok o)
  | .error e => (st, .error e)

/-- A row of the `sync_state` table as read back by
`get_last_sync_time`; `sync_cursor` may be absent
(`last_sync.get('sync_cursor', '')`). -/
structure SyncStateRow where
  last_sync_time : Int
  sync_cursor : Option String
  deriving DecidableEq, Repr

/-- `get_last_sync_time` (lines 56-73): the returned
`(last_sync_time, cursor)` pair plus the warning log lines emitted.
`query` is the outcome of the Supabase read ordered by descending
`last_sync_time` (any raise inside the `try`, including a failed parse
of the stored timestamp, lands in `.error`).  With no row and on any
error the default lookback of 24 hours (86400 seconds) before `now` is
returned with an empty cursor. -/
def get_last_sync_time (now : Int)
    (query : Except String (List SyncStateRow)) :
    (Int × String) × List String :=
  match query with
  | .error e => ((now - 86400, ""), ["Error getting last sync time: " ++ e])
  | .ok [] => ((now - 86400, ""), [])
  | .ok (r :: _) => ((r.last_sync_time, r.sync_cursor.getD ""), [])

/-- Concrete HubSpot record used by the concrete scenarios below. -/
def recW : SourceRecord :=
  ⟨"1", some "2024-01-01T00:00:00Z", some "2024-01-02T00:00:00Z", false,
   [("email", PropVal.str "a@b.com")]⟩

/-- Scenario for the watermark bug: the table exists, page 1 returns one
record with a paging token, and the page-2 request raises; the fetch
aborts mid-pagination with partial results. -/
def c1env : Env :=
  { tableExists := true, fileWriteOk := true,
    pages := [.ok [recW] (some "p2"), .exn "ConnectionError"],
    bulkOk := fun _ => true, singleOk := fun _ => true }

/-- Scenario for the 401 behaviour: page 1 returns one record with a
paging token and the page-2 request is rejected as unauthorized. -/
def c2envA : Env :=
  { tableExists := true, fileWriteOk := true,
    pages := [.ok [recW] (some "p2"), .unauthorized],
    bulkOk := fun _ => true, singleOk := fun _ => true }

/-- A genuinely successful single-page fetch of the same record. -/
def c2envB : Env :=
  { tableExists := true, fileWriteOk := true,
    pages := [.ok [recW] none],
    bulkOk := fun _ => true, singleOk := fun _ => true }

/-- The properties map of the spec's round-trip example. -/
def c4props : Props :=
  [("email", PropVal.str "a@b.com"), ("custom_field", PropVal.str "x")]

/-- The source record of the spec's round-trip example. -/
def c4obj : SourceRecord := ⟨"1", none, none, false, c4props⟩

/-- A properties map whose single key sanitizes to the fixed column
name `raw_properties`, exercising the unchecked collision edge case. -/
def c4badProps : Props := [("raw-properties", PropVal.str "x")]

/-- Source record carrying the colliding property. -/
def c4badObj : SourceRecord := ⟨"1", none, none, false, c4badProps⟩

/-- Rows with key sets {a,b}, {a,c}, {a} from the spec's
rectangularization example. -/
def c5row1 : Row := [("a", RowVal.str "1"), ("b", RowVal.str "2")]

def c5row2 : Row := [("a", RowVal.str "3"), ("c", RowVal.str "4")]

def c5row3 : Row := [("a", RowVal.str "5")]

def c5batch : List Row := [c5row1, c5row2, c5row3]

/-- A batch with one well-formed and one malformed row for the fallback
scenario. -/
def c6batch : List Row := [[("a", RowVal.str "1")], [("a", RowVal.str "bad")]]

/-- Upsert oracle whose bulk call always fails. -/
def c6bulkOk : List Row → Bool := fun _ => false

/-- Upsert oracle under which exactly the malformed row fails. -/
def c6singleOk : Row → Bool := fun r => rowGet r "a" != some (RowVal.str "bad")

/-- Environment with a missing destination table and a working file
system, for the provisioning gate. -/
def c7env : Env :=
  { tableExists := false, fileWriteOk := true, pages := [],
    bulkOk := fun _ => true, singleOk := fun _ => true }

/-- Environment whose fetch yields no objects, for the early-return
paths of `export_object_type`. -/
def c3env : Env :=
  { tableExists := true, fileWriteOk := true, pages := [.ok [] none],
    bulkOk := fun _ => true, singleOk := fun _ => true }

/-- C9: with no prior watermark record, `get_last_sync_time` returns
exactly 24 hours before the current time together with an empty cursor;
in particular the bound is no more than 24 hours in the past. -/
theorem c9_default_lookback :
    ∀ now : Int,
      (get_last_sync_time now (Except.ok [])).1 = (now - 86400, "")
      ∧ now - (get_last_sync_time now (Except.ok [])).1.1 ≤ 86400 := by
  intro now
  refine ⟨rfl, ?_⟩
  simp [get_last_sync_time]

/-- C10: when the watermark-store read raises any error,
`get_last_sync_time` logs a warning, swallows the error, and returns the
same 24-hour-lookback default with empty cursor as when no record
exists. -/
theorem c10_store_error_default_lookback :
    ∀ (now : Int) (e : String),
      (get_last_sync_time now (Except.error e)).1 = (now - 86400, "")
      ∧ (get_last_sync_time now (Except.error e)).2
          = ["Error getting last sync time: " ++ e]
      ∧ (get_last_sync_time now (Except.error e)).1
          = (get_last_sync_time now (Except.ok [])).1 :=
  fun _ _ => ⟨rfl, rfl, rfl⟩

/-- C8: the sanitization used at table creation and the one used at row
flattening are the same function; it replaces every non-alphanumeric
character with an underscore and lower-cases the result, mapping
"Lead Status!" to "lead_status_". -/
theorem c8_sanitization :
    (∀ p : String, sanitizeCreate p = sanitizeFlatten p)
    ∧ sanitizeCreate "Lead Status!" = "lead_status_"
    ∧ (∀ p : String, (sanitizeCreate p).data
        = p.data.map (fun c => if c.isAlphanum then c.toLower else '_')) := by
  refine ⟨fun _ => rfl, by decide, fun p => ?_⟩
  simp only [sanitizeCreate, pyLower, replaceNonAlnum, List.map_map]
  apply List.map_congr_left
  intro c _
  by_cases h : c.isAlphanum
  · simp [h]
  · simp [h, Function.comp]

theorem rowGet_rowSet_self (r : Row) (q : String) (w : RowVal) :
    rowGet (rowSet r q w) q = some w := by
  induction r with
  | nil => simp [rowSet, rowGet]
  | cons kv r ih =>
      obtain ⟨k, v⟩ := kv
      by_cases h : k = q
      · subst h
        simp [rowSet, rowGet]
      · simp [rowSet, rowGet, h, ih]

theorem rowGet_rowSet_ne (r : Row) (k q : String) (w : RowVal)
    (h : k ≠ q) : rowGet (rowSet r k w) q = rowGet r q := by
  induction r with
  | nil => simp [rowSet, rowGet, h]
  | cons kv r ih =>
      obtain ⟨k', v'⟩ := kv
      by_cases h' : k' = k
      · subst h'
        simp [rowSet, rowGet, h]
      · by_cases h'' : k' = q
        · subst h''
          simp [rowSet, rowGet, h']
        · simp [rowSet, rowGet, h', h'', ih]

/-- Keys the flattening loop never writes are untouched by the fold. -/
theorem rowGet_flattenFold_frame (props : Props) (ps : List String)
    (q : String) (h : ∀ p ∈ ps, sanitizeFlatten p ≠ q) (r : Row) :
    rowGet (ps.foldl (flattenStep props) r) q = rowGet r q := by
  induction ps generalizing r with
  | nil => rfl
  | cons p ps ih =>
      have hp : sanitizeFlatten p ≠ q := h p (by simp)
      have hps : ∀ p' ∈ ps, sanitizeFlatten p' ≠ q :=
        fun p' hm => h p' (by simp [hm])
      rw [List.foldl_cons, ih hps]
      unfold flattenStep
      cases hv : lookupProp props p with
      | none => rfl
      | some v =>
          by_cases hn : v = PropVal.null
          · simp [hn]
          · simp [hn, rowGet_rowSet_ne _ _ _ _ hp]

/-- A declared property that is present and non-null ends up flattened
under its sanitized column name, provided no later declared property
sanitizes to the same name. -/
theorem rowGet_flattenFold_hit (props : Props) (ps : List String)
    (p : String) (v : PropVal) (hmem : p ∈ ps)
    (hnodup : List.Pairwise (fun a b => sanitizeFlatten a ≠ sanitizeFlatten b) ps)
    (hv : lookupProp props p = some v) (hnn : v ≠ PropVal.null) (r : Row) :
    rowGet (ps.foldl (flattenStep props) r) (sanitizeFlatten p)
      = some (.str (pyStrProp v)) := by
  induction ps generalizing r with
  | nil => cases hmem
  | cons a ps ih =>
      rw [List.foldl_cons]
      rcases List.mem_cons.mp hmem with rfl | hmem'
      · have hlater : ∀ b ∈ ps, sanitizeFlatten b ≠ sanitizeFlatten p :=
          fun b hb => Ne.symm ((List.pairwise_cons.mp hnodup).1 b hb)
        rw [rowGet_flattenFold_frame props ps _ hlater]
        simp [flattenStep, hv, hnn, rowGet_rowSet_self]
      · exact ih hmem' (List.pairwise_cons.mp hnodup).2 _

/-- Every binding the flattening fold adds on top of the start row comes
from a declared property that is present and non-null, stringified. -/
theorem rowGet_flattenFold_new (props : Props) (ps : List String)
    (q : String) (w : RowVal) (r : Row)
    (h : rowGet (ps.foldl (flattenStep props) r) q = some w) :
    rowGet r q = some w ∨
      ∃ p ∈ ps, sanitizeFlatten p = q ∧
        ∃ v, lookupProp props p = some v ∧ v ≠ PropVal.null
          ∧ w = .str (pyStrProp v) := by
  induction ps generalizing r with
  | nil => exact Or.inl h
  | cons a ps ih =>
      rw [List.foldl_cons] at h
      rcases ih _ h with h' | ⟨p, hp, hrest⟩
      · cases hv : lookupProp props a with
        | none =>
            simp only [flattenStep, hv] at h'
            exact Or.inl h'
        | some v =>
            simp only [flattenStep, hv] at h'
            by_cases hn : v = PropVal.null
            · rw [if_pos hn] at h'
              exact Or.inl h'
            · rw [if_neg hn] at h'
              by_cases hk : sanitizeFlatten a = q
              · subst hk
                rw [rowGet_rowSet_self] at h'
                refine Or.inr ⟨a, by simp, rfl, v, hv, hn, ?_⟩
                exact (Option.some.injEq _ _ ▸ h').symm
              · rw [rowGet_rowSet_ne _ _ _ _ hk] at h'
                exact Or.inl h'
      · exact Or.inr ⟨p, by simp [hp], hrest⟩

theorem rowGet_baseRow_raw (obj : SourceRecord) :
    rowGet (baseRow obj) "raw_properties" = some (.obj obj.properties) := by
  simp [baseRow, rowGet]

theorem rowGet_baseRow_of_not_fixed (obj : SourceRecord) (q : String)
    (h : q ∉ fixedRowKeys) : rowGet (baseRow obj) q = none := by
  simp only [fixedRowKeys, List.mem_cons, List.not_mem_nil, or_false,
    not_or] at h
  obtain ⟨h1, h2, h3, h4, h5⟩ := h
  simp [baseRow, rowGet, Ne.symm h1, Ne.symm h2, Ne.symm h3, Ne.symm h4,
    Ne.symm h5]

/-- C4: the transformed row keeps the full untouched properties map in
`raw_properties`; its flattened (non-fixed) columns are exactly the
sanitized names of declared properties whose value is present and
non-null, each coerced to a string; absent or null declared properties
and undeclared properties do not appear as flattened columns.  The
hypotheses rule out the unchecked sanitization-collision edge cases. -/
theorem c4_flatten_round_trip (properties : List String) (obj : SourceRecord)
    (hfix : ∀ p ∈ properties, sanitizeFlatten p ∉ fixedRowKeys)
    (hinj : List.Pairwise
      (fun a b => sanitizeFlatten a ≠ sanitizeFlatten b) properties) :
    rowGet (buildRecord properties obj) "raw_properties"
        = some (.obj obj.properties)
    ∧ (∀ p ∈ properties, ∀ v, lookupProp obj.properties p = some v →
         v ≠ PropVal.null →
         rowGet (buildRecord properties obj) (sanitizeFlatten p)
           = some (.str (pyStrProp v)))
    ∧ (∀ q, q ∉ fixedRowKeys →
         ∀ w, rowGet (buildRecord properties obj) q = some w →
         ∃ p ∈ properties, sanitizeFlatten p = q ∧
           ∃ v, lookupProp obj.properties p = some v ∧ v ≠ PropVal.null
             ∧ w = .str (pyStrProp v)) := by
  refine ⟨?_, ?_, ?_⟩
  · have hraw : ∀ p ∈ properties, sanitizeFlatten p ≠ "raw_properties" := by
      intro p hp hcontra
      exact hfix p hp (by simp [hcontra, fixedRowKeys])
    rw [buildRecord, rowGet_flattenFold_frame _ _ _ hraw,
      rowGet_baseRow_raw]
  · intro p hp v hv hnn
    exact rowGet_flattenFold_hit obj.properties properties p v hp hinj hv hnn _
  · intro q hq w hw
    rcases rowGet_flattenFold_new obj.properties properties q w _ hw
      with h' | h'
    · rw [rowGet_baseRow_of_not_fixed obj q hq] at h'
      cases h'
    · exact h'

/-- C4 counterexample: a declared property named "raw-properties"
sanitizes to the fixed column name `raw_properties`, and since the row
is one Python dict, flattening it overwrites the raw blob: the stored
`raw_properties` is the coerced string "x", not the full untouched
properties map the claim promises for every declared property list. -/
theorem c4_collision_counterexample :
    sanitizeFlatten "raw-properties" = "raw_properties"
    ∧ rowGet (buildRecord ["raw-properties"] c4badObj) "raw_properties"
        = some (.str "x")
    ∧ rowGet (buildRecord ["raw-properties"] c4badObj) "raw_properties"
        ≠ some (.obj c4badObj.properties) := by
  exact ⟨rfl, rfl, by decide⟩

/-- Witness for C4 at the spec's round-trip example: declared list
["email"], properties map with both an email and an undeclared custom
field; the flattened email column holds the string value, the undeclared
field is not flattened, and `raw_properties` keeps the whole map. -/
theorem c4_witness :
    (∀ p ∈ ["email"], sanitizeFlatten p ∉ fixedRowKeys)
    ∧ rowGet (buildRecord ["email"] c4obj) "raw_properties"
        = some (.obj c4props)
    ∧ rowGet (buildRecord ["email"] c4obj) (sanitizeFlatten "email")
        = some (.str "a@b.com")
    ∧ rowGet (buildRecord ["email"] c4obj) "custom_field" = none := by
  refine ⟨by decide, ?_, ?_, by decide⟩
  · exact (c4_flatten_round_trip ["email"] c4obj (by decide) (by simp)).1
  · exact (c4_flatten_round_trip ["email"] c4obj (by decide) (by simp)).2.1
      "email" (by simp) (PropVal.str "a@b.com") rfl (by decide)

theorem mem_foldl_append_keys (batch : List Row) (start : List String)
    (q : String) :
    q ∈ batch.foldl (fun acc r => acc ++ rowKeys r) start
      ↔ q ∈ start ∨ ∃ r ∈ batch, q ∈ rowKeys r := by
  induction batch generalizing start with
  | nil => simp
  | cons r batch ih =>
      rw [List.foldl_cons, ih]
      simp [List.mem_append, or_assoc]

/-- Membership in the key union of a batch. -/
theorem mem_batchKeys (batch : List Row) (q : String) :
    q ∈ batchKeys batch ↔ ∃ r ∈ batch, q ∈ rowKeys r := by
  simp [batchKeys, List.mem_dedup, mem_foldl_append_keys]

theorem rowGet_isSome_of_mem_keys (r : Row) (q : String)
    (h : q ∈ rowKeys r) : ∃ v, rowGet r q = some v := by
  induction r with
  | nil => cases h
  | cons kv r ih =>
      obtain ⟨k, v⟩ := kv
      by_cases hk : k = q
      · subst hk
        exact ⟨v, by simp [rowGet]⟩
      · rcases List.mem_cons.mp h with h' | h'
        · exact absurd h'.symm hk
        · obtain ⟨w, hw⟩ := ih h'
          exact ⟨w, by simp [rowGet, hk, hw]⟩

theorem rowGet_eq_none_of_not_mem (r : Row) (q : String)
    (h : q ∉ rowKeys r) : rowGet r q = none := by
  induction r with
  | nil => rfl
  | cons kv r ih =>
      obtain ⟨k, v⟩ := kv
      simp only [rowKeys, List.map_cons, List.mem_cons, not_or] at h
      simp [rowGet, Ne.symm h.1, ih (by simpa [rowKeys] using h.2)]

/-- Looking up a key of the union in a standardized row yields the
row's own value when present, `None` fill otherwise. -/
theorem rowGet_standardize (ks : List String) (r : Row) (q : String)
    (hq : q ∈ ks) :
    rowGet (standardize ks r) q = some ((rowGet r q).getD RowVal.null) := by
  induction ks with
  | nil => cases hq
  | cons k ks ih =>
      by_cases h : k = q
      · subst h
        simp [standardize, rowGet]
      · rcases List.mem_cons.mp hq with h' | h'
        · exact absurd h'.symm h
        · simpa [standardize, rowGet, h] using ih h'

theorem rowKeys_standardize (ks : List String) (r : Row) :
    rowKeys (standardize ks r) = ks := by
  induction ks with
  | nil => rfl
  | cons k ks ih => simpa [standardize, rowKeys] using ih

/-- C5: every row of the padded batch is rectangular over the union of
the batch's key sets: its key list is exactly that union, keys the input
row has keep their original value, and keys it is missing are filled
with null. -/
theorem c5_batch_rectangularization (batch : List Row) (r : Row)
    (_hr : r ∈ batch) :
    rowKeys (standardize (batchKeys batch) r) = batchKeys batch
    ∧ (∀ q, q ∈ batchKeys batch ↔ ∃ r' ∈ batch, q ∈ rowKeys r')
    ∧ (∀ q ∈ batchKeys batch, q ∈ rowKeys r →
        rowGet (standardize (batchKeys batch) r) q = rowGet r q)
    ∧ (∀ q ∈ batchKeys batch, q ∉ rowKeys r →
        rowGet (standardize (batchKeys batch) r) q = some RowVal.null)
    ∧ paddedBatch batch = batch.map (standardize (batchKeys batch)) := by
  refine ⟨rowKeys_standardize _ _, fun q => mem_batchKeys batch q, ?_, ?_, rfl⟩
  · intro q hq hmem
    obtain ⟨v, hv⟩ := rowGet_isSome_of_mem_keys r q hmem
    rw [rowGet_standardize _ _ _ hq, hv]
    rfl
  · intro q hq hmem
    rw [rowGet_standardize _ _ _ hq, rowGet_eq_none_of_not_mem r q hmem]
    rfl

/-- Witness for C5 at the spec's example: rows with key sets {a,b},
{a,c}, {a} all acquire the key set {a,b,c}, with null fill for missing
keys and original values kept. -/
theorem c5_witness :
    c5row1 ∈ c5batch
    ∧ rowKeys (standardize (batchKeys c5batch) c5row1) = batchKeys c5batch
    ∧ rowGet (standardize (batchKeys c5batch) c5row1) "a"
        = rowGet c5row1 "a"
    ∧ rowGet (standardize (batchKeys c5batch) c5row1) "c"
        = some RowVal.null := by
  refine ⟨by simp [c5batch], ?_, ?_, ?_⟩
  · exact (c5_batch_rectangularization c5batch c5row1 (by simp [c5batch])).1
  · exact (c5_batch_rectangularization c5batch c5row1
      (by simp [c5batch])).2.2.1 "a" (by decide) (by decide)
  · exact (c5_batch_rectangularization c5batch c5row1
      (by simp [c5batch])).2.2.2.1 "c" (by decide) (by decide)

/-- C6: when the bulk upsert of a batch fails, the fallback attempts
every row of the padded batch individually, counts exactly the rows
whose single upsert succeeds (a failing row does not stop later rows
from being attempted and counted), reports successes ≤ attempted, and
the loop over batches always proceeds through every batch. -/
theorem c6_row_by_row_fallback (bulkOk : List Row → Bool)
    (singleOk : Row → Bool) (batch : List Row)
    (hfail : bulkOk (paddedBatch batch) = false) :
    (loadBatch bulkOk singleOk batch).attempted = batch.length
    ∧ (loadBatch bulkOk singleOk batch).bulkSucceeded = false
    ∧ (loadBatch bulkOk singleOk batch).successes
        = ((paddedBatch batch).filter singleOk).length
    ∧ (loadBatch bulkOk singleOk batch).successes
        ≤ (loadBatch bulkOk singleOk batch).attempted
    ∧ (∀ batches : List (List Row),
        (batches.map (loadBatch bulkOk singleOk)).length = batches.length) := by
  have hload : loadBatch bulkOk singleOk batch =
      ⟨false, (paddedBatch batch).length,
        ((paddedBatch batch).filter singleOk).length⟩ := by
    simp only [loadBatch, hfail, Bool.false_eq_true, if_false]
  rw [hload]
  exact ⟨by simp [paddedBatch], rfl, rfl, List.length_filter_le _ _,
    fun batches => by simp⟩

/-- Witness for C6: a bulk failure on a two-row batch with one malformed
row still commits the other row; one success out of two attempted. -/
theorem c6_witness :
    c6bulkOk (paddedBatch c6batch) = false
    ∧ (loadBatch c6bulkOk c6singleOk c6batch).attempted = 2
    ∧ (loadBatch c6bulkOk c6singleOk c6batch).successes
        = ((paddedBatch c6batch).filter c6singleOk).length
    ∧ (loadBatch c6bulkOk c6singleOk c6batch).successes = 1 := by
  refine ⟨rfl, ?_, (c6_row_by_row_fallback c6bulkOk c6singleOk c6batch
    rfl).2.2.1, by decide⟩
  have h := (c6_row_by_row_fallback c6bulkOk c6singleOk c6batch rfl).1
  simpa [c6batch] using h

/-- C3: whenever `export_object_type` returns without raising — in
particular on the early-return paths (missing destination table, empty
discovered property list, zero fetched objects) — the loop body of
`main` still calls `update_sync_state`, advancing the stored watermark
to the current time even though no rows were loaded. -/
theorem c3_watermark_advanced_whenever_export_returns :
    (∀ (env : Env) (ot : String) (sp : Option (List String))
        (ap : List String) (st : Option StoredSyncState) (now : Int),
      (∃ o, export_object_type env ot sp ap 100 = .ok o) →
      (processObjectType env ot sp ap st now).1 = some ⟨now, "", now⟩)
    ∧ (∀ (env : Env) (ot : String) (ps : List String),
        env.tableExists = false → env.fileWriteOk = true →
        ∃ a, export_object_type env ot (some ps) [] 100
          = .ok (.needsProvisioning a))
    ∧ (∀ (env : Env) (ot : String),
        export_object_type env ot none [] 100 = .ok .noProperties)
    ∧ (∀ (env : Env) (ot : String) (ps : List String),
        env.tableExists = true →
        (get_hubspot_objects env.pages).records = [] →
        export_object_type env ot (some ps) [] 100 = .ok .noObjects) := by
  refine ⟨?_, ?_, ?_, ?_⟩
  · intro env ot sp ap st now ⟨o, ho⟩
    simp [processObjectType, ho, update_sync_state]
  · intro env ot ps h1 h2
    refine ⟨(create_supabase_table ("hubspot_" ++ ot) ps).1, ?_⟩
    simp [export_object_type, h1, h2, create_supabase_table]
  · intro env ot
    rfl
  · intro env ot ps h1 h2
    simp [export_object_type, h1, exportLoad, h2]

/-- Witness for C3: a run whose fetch returns zero objects still
advances the stored watermark from 1000 to the current time 2000. -/
theorem c3_witness :
    export_object_type c3env "contacts" (some ["email"]) [] 100
        = .ok .noObjects
    ∧ (processObjectType c3env "contacts" (some ["email"]) []
        (some ⟨1000, "", 1000⟩) 2000).1 = some ⟨2000, "", 2000⟩ :=
  ⟨rfl, c3_watermark_advanced_whenever_export_returns.1 c3env "contacts"
    (some ["email"]) [] (some ⟨1000, "", 1000⟩) 2000 ⟨.noObjects, rfl⟩⟩

/-- C1 (code bug, concrete failing run): page 1 returns one record with
a paging token, the page-2 request raises, so the fetch aborts
mid-pagination with partial results (ghost flag `complete = false`);
`get_hubspot_objects` swallows the error, `export_object_type` returns
normally, and the loop body of `main` advances the stored watermark from
1000 to 2000 — the claim (and the spec's watermark-monotonicity
invariant) requires it to stay at 1000. -/
theorem c1_watermark_advanced_on_aborted_fetch :
    (get_hubspot_objects c1env.pages).complete = false
    ∧ (get_hubspot_objects c1env.pages).records = [recW]
    ∧ (processObjectType c1env "contacts" (some ["email"]) []
        (some ⟨1000, "", 1000⟩) 2000).1 = some ⟨2000, "", 2000⟩
    ∧ some (⟨2000, "", 2000⟩ : StoredSyncState) ≠ some ⟨1000, "", 1000⟩ := by
  exact ⟨rfl, rfl, rfl, by decide⟩

/-- C2 counterexample: a fetch aborted by a 401 after one successful
page is returned to the caller as an ordinary result, identical to the
result of a genuinely complete single-page fetch — the authorization
failure does not surface to the caller of the object type's sync and is
silently converted into a successful partial result. -/
theorem c2_counterexample :
    (get_hubspot_objects c2envA.pages).complete = false
    ∧ (get_hubspot_objects c2envB.pages).complete = true
    ∧ export_object_type c2envA "contacts" (some ["email"]) [] 100
        = export_object_type c2envB "contacts" (some ["email"]) [] 100
    ∧ export_object_type c2envA "contacts" (some ["email"]) [] 100
        = .ok (.loaded [⟨true, 1, 1⟩]) := by
  exact ⟨rfl, rfl, rfl, rfl⟩

/-- C2 amended: on a 401 the fetch aborts immediately with no retry
(no further response is consumed; records accumulated so far are kept
and the ghost completeness flag is cleared), unlike a 429 which retries;
but the failure does not surface to the caller: the partial record list
is returned as an ordinary result and, when non-empty, the object
type's sync proceeds to load it as if the fetch had succeeded. -/
theorem c2_unauthorized_aborts_without_surfacing :
    (∀ (rest : List PageResponse) (acc : List SourceRecord),
        fetchGo (PageResponse.unauthorized :: rest) acc = ⟨acc, false⟩)
    ∧ (∀ (t : Nat) (rest : List PageResponse) (acc : List SourceRecord),
        fetchGo (PageResponse.rateLimited t :: rest) acc = fetchGo rest acc)
    ∧ (∀ (env : Env) (ot : String) (ps : List String),
        env.tableExists = true →
        (get_hubspot_objects env.pages).records ≠ [] →
        ∃ reports, export_object_type env ot (some ps) [] 100
          = .ok (.loaded reports)) := by
  refine ⟨fun rest acc => rfl, fun t rest acc => rfl, ?_⟩
  intro env ot ps ht hne
  cases h : (get_hubspot_objects env.pages).records with
  | nil => exact absurd h hne
  | cons a l =>
      refine ⟨(chunks 100 ((a :: l).map (buildRecord ps))).map
        (loadBatch env.bulkOk env.singleOk), ?_⟩
      simp [export_object_type, ht, exportLoad, h]

/-- Witness for C2's amended claim: the 401 scenario with one fetched
record aborts with exactly that record, and its sync still loads the
partial result. -/
theorem c2_amended_witness :
    fetchGo [PageResponse.unauthorized] [recW] = ⟨[recW], false⟩
    ∧ ∃ reports, export_object_type c2envA "contacts" (some ["email"]) [] 100
        = .ok (.loaded reports) :=
  ⟨c2_unauthorized_aborts_without_surfacing.1 [] [recW],
   c2_unauthorized_aborts_without_surfacing.2.2 c2envA "contacts" ["email"]
     rfl (by decide)⟩

/-- C7: with the destination table absent, the generated schema is the
fixed columns (serial key, unique hubspot identity key, created_at,
updated_at, archived flag, raw-properties blob) plus one quoted
text-typed column per sanitized property name; the CREATE TABLE script
is emitted as a file artifact, `create_supabase_table` returns false
(needs provisioning), `export_object_type` halts with that outcome, and
no fetch-and-load is performed: the run is independent of every HTTP
response the source might have given. -/
theorem c7_provisioning_gate (env : Env) (objectType : String)
    (ps : List String) (habs : env.tableExists = false)
    (hw : env.fileWriteOk = true) :
    export_object_type env objectType (some ps) [] 100
        = .ok (.needsProvisioning
            (create_supabase_table ("hubspot_" ++ objectType) ps).1)
    ∧ (create_supabase_table ("hubspot_" ++ objectType) ps).2 = false
    ∧ (create_supabase_table ("hubspot_" ++ objectType) ps).1.filename
        = "create_" ++ ("hubspot_" ++ objectType) ++ ".sql"
    ∧ (create_supabase_table ("hubspot_" ++ objectType) ps).1.contents
        = createTableSql ("hubspot_" ++ objectType) ps
    ∧ tableColumns ps
        = fixedColumns ++ ps.map (fun p => "\"" ++ sanitizeCreate p ++ "\" TEXT")
    ∧ "hubspot_id TEXT NOT NULL UNIQUE" ∈ fixedColumns
    ∧ "created_at TIMESTAMPTZ" ∈ fixedColumns
    ∧ "updated_at TIMESTAMPTZ" ∈ fixedColumns
    ∧ "archived BOOLEAN DEFAULT FALSE" ∈ fixedColumns
    ∧ "raw_properties JSONB" ∈ fixedColumns
    ∧ (∀ pages : List PageResponse,
        export_object_type { env with pages := pages } objectType
            (some ps) [] 100
          = export_object_type env objectType (some ps) [] 100) := by
  refine ⟨?_, rfl, rfl, rfl, rfl, by simp [fixedColumns],
    by simp [fixedColumns], by simp [fixedColumns], by simp [fixedColumns],
    by simp [fixedColumns], ?_⟩
  · simp [export_object_type, habs, hw, create_supabase_table]
  · intro pages
    simp [export_object_type, habs, hw, create_supabase_table]

/-- Witness for C7: with a missing `hubspot_contacts` table the export
halts at the provisioning gate with the emitted artifact. -/
theorem c7_witness :
    export_object_type c7env "contacts" (some ["email"]) [] 100
      = .ok (.needsProvisioning
          (create_supabase_table ("hubspot_" ++ "contacts") ["email"]).1) :=
  (c7_provisioning_gate c7env "contacts" ["email"] rfl rfl).1

end HubSpotSupabase
